import Mathlib

/-!
Verification of the Minus80 persistence layer and catalog abstraction
(`src/minus80/Freezable.py`, `src/minus80/Cohort.py`).

The Python code is shallowly embedded: SQLite tables become Lean lists of
rows kept in insertion order (a `SELECT ... fetchone()` is the first match
of a left-to-right scan), `INSERT OR IGNORE` / `INSERT OR REPLACE` become
the corresponding list transformations, Python exceptions become an
`Except` error type, and the `functools.lru_cache` on `Cohort._get_AID`
becomes an explicit association list carried in the state.  All functions
are executable so that concrete states can be evaluated by `decide`/`rfl`.
-/

set_option maxHeartbeats 1000000

namespace Minus80

/-- The Python exception classes that the modelled code paths can raise:
`NameError` (`Cohort._get_AID`'s not-found error), `TypeError`
(unpacking/indexing `None` from `fetchone()`, or an explicit raise),
`ValueError` (with its message), `IOError` (`bcz.open` failure), an
SQLite uniqueness-constraint violation, and `AttributeError` (a
dereference of an attribute the object does not have). -/
inductive PyErr where
  | nameError
  | typeError
  | valueError (msg : String)
  | ioError
  | constraintError
  | attributeError
deriving DecidableEq, Repr

/-- Python `dict` assignment `d[k] = v` on a dict represented as an
association list in key-insertion order: an existing key keeps its
position and gets the new value, a new key is appended at the end. -/
def dictUpd {κ β : Type} [DecidableEq κ] (d : List (κ × β)) (k : κ) (v : β) :
    List (κ × β) :=
  if d.any (fun p => p.1 == k) then
    d.map (fun p => if p.1 == k then (k, v) else p)
  else d ++ [(k, v)]

/-- Python `d[k]` / SQL lookup of the first row keyed by `k`. -/
def dictFind {κ β : Type} [DecidableEq κ] (d : List (κ × β)) (k : κ) :
    Option β :=
  (d.find? (fun p => p.1 == k)).map (fun p => p.2)

theorem dictFind_dictUpd {κ β : Type} [DecidableEq κ]
    (d : List (κ × β)) (k k' : κ) (v : β) :
    dictFind (dictUpd d k v) k' = if k' = k then some v else dictFind d k' := by
  by_cases hany : d.any (fun p => p.1 == k)
  · rcases eq_or_ne k' k with rfl | hne
    · simp only [dictUpd, if_pos hany, dictFind, if_pos rfl]
      induction d with
      | nil => simp at hany
      | cons p rest ih =>
        by_cases hp : p.1 = k'
        · rw [List.map_cons, if_pos (by simpa using hp),
            List.find?_cons_of_pos _ (by simp)]
          rfl
        · have hrest : rest.any (fun p => p.1 == k') := by
            simpa [List.any_cons, hp] using hany
          rw [List.map_cons, if_neg (by simpa using hp),
            List.find?_cons_of_neg _ (by simpa using hp)]
          exact ih hrest
    · simp only [dictUpd, if_pos hany, dictFind, if_neg hne]
      clear hany
      induction d with
      | nil => rfl
      | cons p rest ih =>
        by_cases hp : p.1 = k
        · rw [List.map_cons, if_pos (by simpa using hp),
            List.find?_cons_of_neg _ (by simp [Ne.symm hne]),
            List.find?_cons_of_neg _ (by simp [hp, Ne.symm hne])]
          exact ih
        · rw [List.map_cons, if_neg (by simpa using hp)]
          by_cases hp' : p.1 = k'
          · rw [List.find?_cons_of_pos _ (by simpa using hp'),
              List.find?_cons_of_pos _ (by simpa using hp')]
          · rw [List.find?_cons_of_neg _ (by simpa using hp'),
              List.find?_cons_of_neg _ (by simpa using hp')]
            exact ih
  · rcases eq_or_ne k' k with rfl | hne
    · have hd : d.find? (fun p => p.1 == k') = none := by
        rw [List.find?_eq_none]
        intro p hp hcon
        exact hany (List.any_eq_true.mpr ⟨p, hp, hcon⟩)
      simp [dictUpd, if_neg hany, dictFind, List.find?_append, hd]
    · have hlast : ([(k, v)] : List (κ × β)).find? (fun p => p.1 == k') = none := by
        simp [Ne.symm hne]
      simp [dictUpd, if_neg hany, dictFind, List.find?_append, hlast, hne]

/-! ## `Freezable.bulk_transaction` (Freezable.py lines 91-112)

The context manager executes, on a cursor of the namespace's connection:
`PRAGMA synchronous = off`, `PRAGMA journal_mode = memory`,
`SAVEPOINT bulk_transaction`, then runs the body; on an exception it runs
`ROLLBACK TO SAVEPOINT bulk_transaction` and re-raises, and the `finally`
clause runs `RELEASE SAVEPOINT bulk_transaction` on every exit path.
The SQLite engine is modelled with abstract data `α` and a save-point
stack; `ROLLBACK TO` restores the data recorded by the topmost save-point
of that name without popping it, `RELEASE` pops through it leaving the
data untouched.  A body is a function from the data to either a final
data value or an exception paired with the partially-written data at the
moment of the raise. -/

/-- Statements issued by `bulk_transaction`, as a trace. -/
inductive TxStmt where
  | pragmaSynchronousOff
  | pragmaJournalMemory
  | savepoint (nm : String)
  | rollbackTo (nm : String)
  | release (nm : String)
deriving DecidableEq, Repr

/-- SQLite connection state: current data, save-point stack (topmost
first, each holding the data at its creation), and the two pragma
flags set by `bulk_transaction`. -/
structure TxState (α : Type) where
  data : α
  savepoints : List (String × α)
  syncOff : Bool
  journalMemory : Bool
deriving DecidableEq, Repr

/-- `SAVEPOINT nm`. -/
def txSavepoint {α : Type} (s : TxState α) (nm : String) : TxState α :=
  { s with savepoints := (nm, s.data) :: s.savepoints }

/-- `ROLLBACK TO SAVEPOINT nm`: restore the data of the topmost
save-point named `nm`; the save-point itself stays on the stack. -/
def txRollbackTo {α : Type} (s : TxState α) (nm : String) : TxState α :=
  match s.savepoints.find? (fun p => p.1 == nm) with
  | some p => { s with data := p.2 }
  | none => s

/-- Pop the save-point stack through the topmost entry named `nm`. -/
def popThrough {α : Type} : List (String × α) → String → List (String × α)
  | [], _ => []
  | p :: rest, nm => if p.1 == nm then rest else popThrough rest nm

/-- `RELEASE SAVEPOINT nm`: commits the save-point into the enclosing
transaction; data is kept, the stack is popped through `nm`. -/
def txRelease {α : Type} (s : TxState α) (nm : String) : TxState α :=
  { s with savepoints := popThrough s.savepoints nm }

/-- `Freezable.bulk_transaction` as a state transformer returning the
context manager's outcome, the final connection state and the trace of
statements it executed itself (body writes excluded). -/
def bulk_transaction {α ε : Type} (s0 : TxState α)
    (body : α → Except (ε × α) α) :
    Except ε Unit × TxState α × List TxStmt :=
  let s1 : TxState α := { s0 with syncOff := true }
  let s2 : TxState α := { s1 with journalMemory := true }
  let s3 : TxState α := txSavepoint s2 "bulk_transaction"
  match body s3.data with
  | .ok d =>
    (.ok (), txRelease { s3 with data := d } "bulk_transaction",
      [.pragmaSynchronousOff, .pragmaJournalMemory,
       .savepoint "bulk_transaction", .release "bulk_transaction"])
  | .error (e, dPartial) =>
    (.error e,
      txRelease (txRollbackTo { s3 with data := dPartial } "bulk_transaction")
        "bulk_transaction",
      [.pragmaSynchronousOff, .pragmaJournalMemory,
       .savepoint "bulk_transaction", .rollbackTo "bulk_transaction",
       .release "bulk_transaction"])

/-- C3: on every exit path of the scoped bulk-transaction block the
save-point is released exactly once and the save-point stack returns to
its entry value; on normal exit the body's writes are committed and on an
exception the exception is re-raised with the data rolled back to its
value at entry, so no partial write of a failed bulk operation
persists. -/
theorem C3_bulk_transaction {α ε : Type} (s0 : TxState α)
    (body : α → Except (ε × α) α) :
    ((bulk_transaction s0 body).2.2.count (.release "bulk_transaction") = 1) ∧
    ((bulk_transaction s0 body).2.1.savepoints = s0.savepoints) ∧
    (match body s0.data with
     | .ok d =>
        (bulk_transaction s0 body).1 = .ok () ∧
        (bulk_transaction s0 body).2.1.data = d
     | .error ed =>
        (bulk_transaction s0 body).1 = .error ed.1 ∧
        (bulk_transaction s0 body).2.1.data = s0.data) := by
  have hbody : body ({ s0 with syncOff := true, journalMemory := true } :
      TxState α).data = body s0.data := rfl
  rcases hres : body s0.data with d | ed
  · refine ⟨?_, ?_, ?_⟩ <;>
      simp [bulk_transaction, txSavepoint, txRelease, txRollbackTo, hres,
        popThrough, List.count_cons, List.count_nil]
  · refine ⟨?_, ?_, ?_⟩ <;>
      simp [bulk_transaction, txSavepoint, txRelease, txRollbackTo, hres,
        popThrough, List.count_cons, List.count_nil, List.find?]

/-! ## The `Cohort` catalog (Cohort.py)

Tables created by `Cohort._initialize_tables`: `accessions(AID, name)`
with autoincrementing `AID` and unique `name`; `aliases(alias UNIQUE,
AID)`; `metadata(AID, key, val, UNIQUE(AID, key, val))`; `raw_files(FID,
path UNIQUE)`; `aid_files(AID, FID, verified, PK(AID, FID))`; plus the
`files` view joining `aid_files` with `raw_files` and its INSTEAD OF
INSERT trigger.  The `lru_cache` on `_get_AID` is the `cache` field;
`invalidates_cache` sets it to `[]` after the wrapped method returns. -/

/-- Metadata values observed through `Cohort.__getitem__`: the table
stores TEXT, but the method injects the integer `AID` into the returned
metadata dict (`metadata['AID'] = AID`). -/
inductive MVal where
  | s (v : String)
  | i (n : Nat)
deriving DecidableEq, Repr

/-- An identifier passed to `Cohort._get_AID`: a Python `str`, a Python
`int` (an AID), or an `Accession` object carrying a name.  `lru_cache`
keys an `Accession` argument by its object identity, so such a call never
hits the cache and its cached entry is never reachable again; the model
therefore treats `.obj` identifiers as uncached. -/
inductive Ident where
  | str (s : String)
  | int (n : Nat)
  | obj (name : String)
deriving DecidableEq, Repr

/-- Modelled from the spec: the `Accession` class is imported from the
package root and is not among the given sources.  Per the spec's data
model it is a record with a unique `name`, a metadata dictionary of
string attributes, and a list of associated file paths. -/
structure Accession where
  name : String
  metadata : List (String × String)
  files : List String
deriving DecidableEq, Repr

/-- The value object assembled by `Cohort.__getitem__`:
`Accession(name, files=files, **metadata)` where `metadata` is the
queried dict extended with the entry `'AID' ↦ AID`. -/
structure AccessionOut where
  name : String
  metadata : List (String × MVal)
  files : List String
deriving DecidableEq, Repr

/-- The relational state of one `Cohort` plus the `_get_AID` memo.
`nextAID` / `nextFID` model the autoincrement counters (SQLite
AUTOINCREMENT never reuses a deleted AID).  `aid_files` rows carry the
`verified` flag (`none` models SQL NULL).  The `lru_cache` maxsize of
32768 is never reached in any state considered here, so eviction is not
modelled. -/
structure CohortDB where
  accessions : List (Nat × String)
  nextAID : Nat
  aliases : List (String × Nat)
  metadata : List (Nat × String × String)
  raw_files : List (Nat × String)
  nextFID : Nat
  aid_files : List (Nat × Nat × Option Nat)
  cache : List (Ident × Nat)
deriving DecidableEq, Repr

/-- `SELECT AID FROM accessions WHERE name = ?` with a string binding:
the `name` column has no type affinity, so this is exact text equality
against the first matching row. -/
def lookupName (db : CohortDB) (s : String) : Option Nat :=
  (db.accessions.find? (fun r => r.2 == s)).map (fun r => r.1)

/-- `SELECT AID FROM aliases WHERE alias = ?` with a string binding:
exact text equality on the TEXT-affinity `alias` column. -/
def lookupAlias (db : CohortDB) (s : String) : Option Nat :=
  (db.aliases.find? (fun r => r.1 == s)).map (fun r => r.2)

/-- `SELECT AID FROM accessions WHERE AID = ?`. -/
def aidExists (db : CohortDB) (k : Nat) : Bool :=
  db.accessions.any (fun r => r.1 == k)

/-- A decimal digit's value. -/
def charDigit? (c : Char) : Option Nat :=
  if 48 ≤ c.toNat ∧ c.toNat ≤ 57 then some (c.toNat - 48) else none

/-- SQLite's numeric-affinity conversion of a TEXT binding compared
against an INTEGER column, for the non-negative decimal numerals that an
AID can be (structural stand-in for `String.toNat?`, which Lean defines
by well-founded recursion). -/
def strToNat? (s : String) : Option Nat :=
  match s.data with
  | [] => none
  | l => l.foldl
      (fun acc c =>
        match acc, charDigit? c with
        | some n, some d => some (n * 10 + d)
        | _, _ => none)
      (some 0)

/-- The uncached body of `Cohort._get_AID` (Cohort.py lines 488-513):
try the name, then the alias, then the AID itself; each `fetchone()[0]`
on an empty result raises `TypeError`, caught and passed on to the next
query, and the last one raises `NameError`.  Affinity notes: a string
binding compared against the INTEGER-affinity `AID` column is converted
to a number when it is a well-formed numeral (`String.toNat?`); an
integer binding against the TEXT-affinity `alias` column is compared as
its decimal text; an integer binding never equals a TEXT `name` (the
`name` column has no affinity, so no conversion happens). -/
def resolveFresh (db : CohortDB) (id : Ident) : Option Nat :=
  match id with
  | .str s | .obj s =>
    match lookupName db s with
    | some aid => some aid
    | none =>
      match lookupAlias db s with
      | some aid => some aid
      | none =>
        match strToNat? s with
        | some k => if aidExists db k then some k else none
        | none => none
  | .int k =>
    match lookupAlias db (toString k) with
    | some aid => some aid
    | none => if aidExists db k then some k else none

/-- `lru_cache` lookup; `.obj` identifiers never hit (object identity). -/
def cacheLookup (db : CohortDB) (id : Ident) : Option Nat :=
  match id with
  | .obj _ => none
  | _ => dictFind db.cache id

/-- `Cohort._get_AID` with its memo: a hit returns the cached AID, a miss
computes and (for hashable-by-value keys) records the result; failures
raise `NameError` and are not cached by `lru_cache`.  The entry an `.obj`
call would leave behind is keyed by object identity and unreachable, so
it is not recorded. -/
def getAID (db : CohortDB) (id : Ident) : Except PyErr (Nat × CohortDB) :=
  match cacheLookup db id with
  | some aid => .ok (aid, db)
  | none =>
    match resolveFresh db id with
    | some aid =>
      match id with
      | .obj _ => .ok (aid, db)
      | _ => .ok (aid, { db with cache := db.cache ++ [(id, aid)] })
    | none => .error .nameError

/-- `Cohort.__getitem__` (Cohort.py lines 371-398): resolve the AID, read
the name (`name, = cur.execute(...).fetchone()` raises `TypeError` when
no row matches), build the metadata dict from the `metadata` rows of that
AID (later rows overwrite earlier values for the same key), set
`metadata['AID'] = AID`, and read the file paths through the `files`
view (`aid_files` joined with `raw_files`). -/
def getitem (db : CohortDB) (id : Ident) :
    Except PyErr (AccessionOut × CohortDB) :=
  match getAID db id with
  | .error e => .error e
  | .ok (aid, db1) =>
    match db1.accessions.find? (fun r => r.1 == aid) with
    | none => .error .typeError
    | some row =>
      let mrows := (db1.metadata.filter (fun r => r.1 == aid)).map
        (fun r => (r.2.1, MVal.s r.2.2))
      let md := dictUpd
        (mrows.foldl (fun d kv => dictUpd d kv.1 kv.2) []) "AID" (.i aid)
      let fs := (db1.aid_files.filter (fun r => r.1 == aid)).filterMap
        (fun r => (db1.raw_files.find? (fun f => f.1 == r.2.1)).map
          (fun f => f.2))
      .ok ({ name := row.2, metadata := md, files := fs }, db1)

/-- `Cohort.__delitem__` (Cohort.py lines 357-369): resolve the AID, then
delete the matching rows from `accessions`, `metadata` and `aid_files`
(the `aliases` table is not touched).  The `invalidates_cache` decorator
clears the whole `_get_AID` cache after the method body returns; when
resolution raises, the body propagates the exception and the cache is
left as it was. -/
def delitem (db : CohortDB) (id : Ident) : Except PyErr CohortDB :=
  match getAID db id with
  | .error e => .error e
  | .ok (aid, db1) =>
    .ok { db1 with
      accessions := db1.accessions.filter (fun r => ¬ r.1 == aid),
      metadata := db1.metadata.filter (fun r => ¬ r.1 == aid),
      aid_files := db1.aid_files.filter (fun r => ¬ r.1 == aid),
      cache := [] }

/-- `Cohort.drop_aliases` (Cohort.py lines 262-267): `DELETE FROM
aliases`, then the decorator clears the cache. -/
def drop_aliases (db : CohortDB) : CohortDB :=
  { db with aliases := [], cache := [] }

/-- `Cohort.__contains__` (Cohort.py lines 411-421): resolve (an
`Accession` argument is replaced by its name first), report `False` on
`NameError`; a successful probe leaves its memo entry behind. -/
def containsDB (db : CohortDB) (id : Ident) : Bool × CohortDB :=
  match getAID db id with
  | .error _ => (false, db)
  | .ok (_, db1) => (true, db1)

/-- `INSERT OR IGNORE INTO accessions (name) VALUES (?)`. -/
def insertName (db : CohortDB) (nm : String) : CohortDB :=
  if db.accessions.any (fun r => r.2 == nm) then db
  else { db with
    accessions := db.accessions ++ [(db.nextAID, nm)],
    nextAID := db.nextAID + 1 }

/-- `INSERT OR REPLACE INTO metadata (AID, key, val)` executed for every
metadata pair: under `UNIQUE(AID, key, val)` the conflicting triple, if
any, is deleted and the new row appended. -/
def insertMeta (db : CohortDB) (aid : Nat) (M : List (String × String)) :
    CohortDB :=
  { db with
    metadata := M.foldl
      (fun rows kv =>
        rows.filter (fun r => ¬ r == (aid, kv.1, kv.2)) ++
          [(aid, kv.1, kv.2)])
      db.metadata }

/-- `INSERT OR IGNORE INTO raw_files (path) VALUES (?)` executed for
every file path. -/
def insertRawFiles (db : CohortDB) (fs : List String) : CohortDB :=
  fs.foldl
    (fun d f =>
      if d.raw_files.any (fun r => r.2 == f) then d
      else { d with
        raw_files := d.raw_files ++ [(d.nextFID, f)],
        nextFID := d.nextFID + 1 })
    db

/-- `Cohort.add_accession` (Cohort.py lines 164-185) as the program
actually runs it: the method's first statement is
`with self._bulk_transaction() as cur:` (line 168), but no
`_bulk_transaction` attribute exists anywhere in `Cohort` or `Freezable`
(the context manager is named `Freezable.bulk_transaction` and nothing
defines `__getattr__`), so every call raises `AttributeError` before any
SQL executes and the catalog state is untouched. -/
def add_accession (db : CohortDB) (acc : Accession) :
    Except PyErr (AccessionOut × CohortDB) :=
  .error .attributeError

/-- The statements of `Cohort.add_accession` past the failing
`with self._bulk_transaction()` line — dead code as written, modelled as
it would run under the `Freezable.bulk_transaction` context manager:
`INSERT OR IGNORE` the name into `accessions`, resolve the AID
(`self._get_AID(accession)` is keyed by the object, hence uncached),
`INSERT OR REPLACE` each metadata pair, and `INSERT OR IGNORE` each file
path into `raw_files` — note: into `raw_files` directly, not into the
`files` view, so no `aid_files` link is created.  No statement of this
body can fail, so the save-point would commit the effects unchanged, and
`return self[accession]` runs after the block. -/
def add_accession_body (db : CohortDB) (acc : Accession) :
    Except PyErr (AccessionOut × CohortDB) :=
  let db1 : CohortDB := insertName db acc.name
  match resolveFresh db1 (.obj acc.name) with
  | none => .error .nameError
  | some aid =>
    getitem (insertRawFiles (insertMeta db1 aid acc.metadata) acc.files)
      (.obj acc.name)

/-! ## SQLite `LIKE` and `Cohort.search_names` (Cohort.py lines 288-300) -/

/-- SQLite's default `LIKE` folds the ASCII letters `A`-`Z` to lower
case and compares everything else byte-for-byte; comparison is done on
the folded codepoints. -/
def sqFoldCode (c : Char) : Nat :=
  if 65 ≤ c.toNat ∧ c.toNat ≤ 90 then c.toNat + 32 else c.toNat

/-- Character comparison used by SQLite's default `LIKE`. -/
def sqCharEq (a b : Char) : Bool :=
  sqFoldCode a == sqFoldCode b

/-- SQLite `LIKE` pattern matching (default, no ESCAPE): `%` matches any
sequence, `_` any single character, anything else one character up to
ASCII case folding.  The `fuel` argument makes the recursion structural
(every recursive call shortens the pattern or the text, so
`p.length + t.length + 1` steps always complete the match); it is an
embedding artifact, not part of the matcher's semantics. -/
def likeMatchF : Nat → List Char → List Char → Bool
  | 0, _, _ => false
  | _ + 1, [], t => t.isEmpty
  | fuel + 1, p :: ps, [] =>
    if p = '%' then likeMatchF fuel ps [] else false
  | fuel + 1, p :: ps, c :: ts =>
    if p = '%' then
      likeMatchF fuel ps (c :: ts) || likeMatchF fuel (p :: ps) ts
    else
      (if p = '_' then true else sqCharEq p c) && likeMatchF fuel ps ts

/-- SQLite `LIKE`, with the always-sufficient fuel filled in. -/
def likeMatch (p t : List Char) : Bool :=
  likeMatchF (p.length + t.length + 1) p t

/-- `Cohort.search_names`: wrap the argument in `%...%` and return the
accession names matching the pattern followed by the aliases matching
it. -/
def search_names (db : CohortDB) (s : String) : List String :=
  let pat := "%" ++ s ++ "%"
  (db.accessions.filter (fun r => likeMatch pat.data r.2.data)).map
      (fun r => r.2) ++
    (db.aliases.filter (fun r => likeMatch pat.data r.1.data)).map
      (fun r => r.1)

/-- The claim's reading of `search_names`: case-sensitive literal
substring containment on both tables (stated from the spec's words, for
comparison with the source's `LIKE`-based definition). -/
def csPref : List Char → List Char → Bool
  | [], _ => true
  | _ :: _, [] => false
  | a :: as, b :: bs => a == b && csPref as bs

/-- Case-sensitive literal substring occurrence. -/
def csOccurs (s t : List Char) : Bool :=
  t.tails.any (fun u => csPref s u)

/-- `search_names` as the claim states it (spec-words definition). -/
def search_names_spec (db : CohortDB) (s : String) : List String :=
  (db.accessions.filter (fun r => csOccurs s.data r.2.data)).map
      (fun r => r.2) ++
    (db.aliases.filter (fun r => csOccurs s.data r.1.data)).map
      (fun r => r.1)

/-- Prefix matching up to SQLite's ASCII case folding. -/
def ciPref : List Char → List Char → Bool
  | [], _ => true
  | _ :: _, [] => false
  | a :: as, b :: bs => sqCharEq a b && ciPref as bs

/-- Substring occurrence up to SQLite's ASCII case folding: the meaning
of `LIKE '%s%'` for a wildcard-free `s`. -/
def ciOccurs (s t : List Char) : Bool :=
  t.tails.any (fun u => ciPref s u)

/-! ## `Cohort.alias_column` (Cohort.py lines 237-260) -/

/-- Warnings logged by `alias_column`. -/
inductive Warn where
  | notUnique (a : String)
  | tooShort (a : String)
deriving DecidableEq, Repr

/-- `Cohort.alias_column` (Cohort.py lines 237-260) as the program
actually runs it: the first statement `cur_names = set(self.names)` is a
harmless read, and the next, `with self._bulk_transaction() as cur:`
(line 242), raises `AttributeError` — no `_bulk_transaction` attribute
exists in `Cohort` or `Freezable` — before any alias logic runs, so no
row is inserted and the `_get_AID` cache is exactly what it was before
the call. -/
def alias_column (db : CohortDB) (colname : String) (minLen : Nat) :
    Except PyErr (CohortDB × List Warn) :=
  .error .attributeError

/-- The statements of `Cohort.alias_column` past the failing
`with self._bulk_transaction()` line — dead code as written, modelled as
it would run under the `Freezable.bulk_transaction` context manager:
take `cur_names = set(self.names)` (all names and aliases, via
`search_names('%')`); build `alias_dict = {val: AID}` from the metadata
rows whose key is `colname` (a Python dict, so a value proposed for
several AIDs keeps only the last AID); build
`alias_counts = Counter(alias_dict.keys())` — counting the keys of a
dict, so every count is 1; then for each candidate in dict order: warn
and skip when `count > 1` (never true) or the candidate is in
`cur_names`, warn and skip when shorter than `min_alias_length`,
otherwise keep `(alias, alias_dict[alias])`.  The kept pairs go through
a plain `INSERT INTO aliases`; a UNIQUE violation would abort and roll
the save-point back.  No `invalidates_cache` decorator: the `_get_AID`
cache is left as it is. -/
def alias_column_body (db : CohortDB) (colname : String) (minLen : Nat) :
    Except PyErr (CohortDB × List Warn) :=
  let curNames := search_names db "%"
  let rows := (db.metadata.filter (fun r => r.2.1 == colname)).map
    (fun r => (r.2.2, r.1))
  let aliasDict := rows.foldl (fun d vw => dictUpd d vw.1 vw.2) []
  let counts := aliasDict.map
    (fun p => (p.1, (aliasDict.map (fun q => q.1)).count p.1))
  let step := counts.foldl
    (fun (acc : List (String × Nat) × List Warn) p =>
      if p.2 > 1 || curNames.contains p.1 then
        (acc.1, acc.2 ++ [.notUnique p.1])
      else if p.1.length < minLen then
        (acc.1, acc.2 ++ [.tooShort p.1])
      else
        match dictFind aliasDict p.1 with
        | some aid => (acc.1 ++ [(p.1, aid)], acc.2)
        | none => acc)
    ([], [])
  if step.1.any (fun p => db.aliases.any (fun q => q.1 == p.1)) then
    .error .constraintError
  else
    .ok ({ db with aliases := db.aliases ++ step.1 }, step.2)

/-! ## Sampling (Cohort.py lines 89-131) -/

/-- `Cohort.random_accession`: `SELECT name FROM accessions ORDER BY
RANDOM() LIMIT 1` — modelled by an externally supplied random draw `r`
selecting a row — followed by `self[name]`.  On an empty table
`fetchone()` returns `None` and `fetchone()[0]` raises `TypeError`. -/
def random_accession (db : CohortDB) (r : Nat) :
    Except PyErr (AccessionOut × CohortDB) :=
  match db.accessions with
  | [] => .error .typeError
  | a :: rest =>
    getitem db (.str (((a :: rest).getD (r % (a :: rest).length) a).2))

/-- Consume the generator `(self[name] for (name,) in ...)` over a list
of names, threading the connection/cache state. -/
def getMany (db : CohortDB) : List String →
    Except PyErr (List AccessionOut × CohortDB)
  | [] => .ok ([], db)
  | nm :: rest =>
    match getitem db (.str nm) with
    | .error e => .error e
    | .ok (a, db1) =>
      match getMany db1 rest with
      | .error e => .error e
      | .ok (as, db2) => .ok (a :: as, db2)

/-- Consume the generator `(self.random_accession() for _ in range(n))`
given the random draws. -/
def drawMany (db : CohortDB) : List Nat →
    Except PyErr (List AccessionOut × CohortDB)
  | [] => .ok ([], db)
  | r :: rest =>
    match random_accession db r with
    | .error e => .error e
    | .ok (a, db1) =>
      match drawMany db1 rest with
      | .error e => .error e
      | .ok (as, db2) => .ok (a :: as, db2)

/-- `Cohort.random_accessions(n, replace)`, with the produced generator
consumed: without replacement it raises `ValueError` when `n` exceeds the
row count of `accessions`, otherwise yields `self[name]` for the first
`n` names of `perm` (the table in `ORDER BY RANDOM()` order); with
replacement it yields `n` independent draws given by `rs`. -/
def random_accessions (db : CohortDB) (n : Nat) (replace : Bool)
    (perm : List String) (rs : List Nat) :
    Except PyErr (List AccessionOut × CohortDB) :=
  if replace = false then
    if n > db.accessions.length then
      .error (.valueError "Only len accessions in cohort")
    else getMany db (perm.take n)
  else drawMany db ((List.range n).map (fun i => rs.getD i 0))

/-! ## `Freezable._dict` and `Freezable.guess_type`
(Freezable.py lines 251-302)

Python values passed to the key-value store.  IEEE-754 floats are outside
this embedding (their SQLite TEXT-affinity round trip depends on the
engine's 15-significant-digit rendering of REAL values); the `float`
branch of `guess_type` is therefore not represented, and the modelled
values cover the `int` and `str` scalars plus representative non-scalar
types. -/
inductive PyVal where
  | i (n : Int)
  | s (v : String)
  | b (v : Bool)
  | lst (v : List Int)
deriving DecidableEq, Repr

/-- `Freezable.guess_type`: the last component of the class name. -/
def guess_type : PyVal → String
  | .i _ => "int"
  | .s _ => "str"
  | .b _ => "bool"
  | .lst _ => "list"

/-- SQLite TEXT-affinity storage of a bound scalar: integers are stored
as their decimal text.  Only called on values accepted by the type
check. -/
def pyEncode : PyVal → String
  | .i n => toString n
  | .s v => v
  | .b _ => ""
  | .lst _ => ""

/-- The `globals` table: `(key, val, type)` rows with a unique index on
`key`. -/
abbrev GlobalsTab : Type := List (String × String × String)

/-- The body of the `val is not None` branch of `Freezable._dict` inside
its `try`: `guess_type`, the membership check raising `TypeError`, then
`INSERT OR REPLACE INTO globals` (the conflicting row is deleted and the
new row appended). -/
def dict_set_inner (g : GlobalsTab) (key : String) (v : PyVal) :
    Except PyErr GlobalsTab :=
  let t := guess_type v
  if ¬ (t = "int" ∨ t = "float" ∨ t = "str") then .error .typeError
  else .ok ((g.filter (fun r => ¬ r.1 == key)) ++ [(key, pyEncode v, t)])

/-- `Freezable._dict(key, val)` with `val` not `None`: the whole body sits
inside `try ... except TypeError: raise ValueError('{} not in
database'.format(key))`, so the `TypeError` raised by the type check is
caught by that handler and re-raised as the key-not-found
`ValueError`. -/
def dict_set (g : GlobalsTab) (key : String) (v : PyVal) :
    Except PyErr GlobalsTab :=
  match dict_set_inner g key v with
  | .error .typeError => .error (.valueError (key ++ " not in database"))
  | r => r

/-! ## `Freezable._bcolz` (Freezable.py lines 173-234)

A pandas `DataFrame` is modelled as an index plus named columns of cell
values; `df.index.dtype_str == 'int64'` holds exactly when every index
value is an integer (an empty frame has the default int64 `RangeIndex`).
The bcolz root directory is the map from table name to stored payload; a
`ctable` stores columns only (the index is dropped), and the
`df.empty` branch writes a zero-length carray.  The code's
`self._get_dbpath('bcz')` (and `_bcolz` itself) dereference
`self._m80_type`, an attribute never assigned (`__init__` sets
`_m80_dtype`), so as written every `_bcolz` call raises
`AttributeError`; `bcolz_put`/`bcolz_get` model that behavior, and the
`_body` definitions model the unreachable payload logic. -/

/-- A cell value of a columnar payload. -/
inductive PVal where
  | i (n : Int)
  | s (v : String)
deriving DecidableEq, Repr

/-- Whether a cell value is an integer. -/
def PVal.isInt : PVal → Bool
  | .i _ => true
  | .s _ => false

/-- A pandas `DataFrame`: index values plus named columns in order. -/
structure PDF where
  index : List PVal
  cols : List (String × List PVal)
deriving DecidableEq, Repr

/-- `df.index.dtype_str == 'int64'`. -/
def idxInt64 (df : PDF) : Bool :=
  df.index.all PVal.isInt

/-- `df.empty`: true when any axis has length zero. -/
def dfEmpty (df : PDF) : Bool :=
  df.index.length == 0 || df.cols.length == 0

/-- `df['idx'] = df.index` on a copy. -/
def dfSetIdxCol (df : PDF) : PDF :=
  { df with cols := dictUpd df.cols "idx" df.index }

/-- `pd.DataFrame()`. -/
def emptyPDF : PDF := { index := [], cols := [] }

/-- A payload stored under one table name in the bcolz rootdir. -/
inductive Stored where
  | emptyPayload
  | table (cols : List (String × List PVal))
deriving DecidableEq, Repr

/-- The bcolz rootdir: one stored payload per table name. -/
abbrev BStore : Type := List (String × Stored)

/-- Row count of a stored ctable (`len(df)` on the opened handle). -/
def storedNRows (cols : List (String × List PVal)) : Nat :=
  match cols with
  | [] => 0
  | c :: _ => c.2.length

/-- `Freezable._bcolz(tblname, df=data)` — the setter — as the program
actually runs it: before any payload I/O the method resolves the
namespace path (`m80type = self._m80_type` at Freezable.py line 189 when
no `m80type` is passed, and `self._get_dbpath('bcz')` dereferences
`self._m80_type` at line 119 in every case), but `_m80_type` is never
assigned — `__init__` sets `_m80_dtype` — so every call raises
`AttributeError` and nothing is written. -/
def bcolz_put (st : BStore) (tbl : String) (df : PDF) :
    Except PyErr BStore :=
  .error .attributeError

/-- The setter statements of `Freezable._bcolz` past the failing
`_m80_type` dereference — dead code as written, modelled with the
namespace path resolved: when the index dtype is not int64 and the frame
is nonempty, copy and add the index as column `idx`; then write either
an empty carray (`df.empty`) or the columns of the frame
(`bcz.ctable.fromdataframe`, `mode='w'` replaces any prior payload). -/
def bcolz_put_body (st : BStore) (tbl : String) (df : PDF) : BStore :=
  let df' := if ¬ idxInt64 df && ¬ dfEmpty df then dfSetIdxCol df else df
  dictUpd st tbl (if dfEmpty df' then .emptyPayload else .table df'.cols)

/-- `Freezable._bcolz(tblname)` — the getter — as the program actually
runs it: it dereferences the never-assigned `self._m80_type` (directly
at Freezable.py line 189 and through `_get_dbpath` at line 119) before
opening anything, so every call raises `AttributeError`. -/
def bcolz_get (st : BStore) (tbl : String) : Except PyErr PDF :=
  .error .attributeError

/-- The getter statements of `Freezable._bcolz` (with `blaze=False`) past
the failing `_m80_type` dereference — dead code as written, modelled
with the namespace path resolved: `bcz.open` raises `IOError` when the
payload is absent; a zero-length payload materializes as
`pd.DataFrame()`; otherwise `todataframe()` yields the columns under a
default int64 `RangeIndex`, and a column named `idx`, if present, is
installed as the index (`set_index('idx', drop=True)`, name
cleared). -/
def bcolz_get_body (st : BStore) (tbl : String) : Except PyErr PDF :=
  match dictFind st tbl with
  | none => .error .ioError
  | some .emptyPayload => .ok emptyPDF
  | some (.table cols) =>
    if storedNRows cols = 0 then .ok emptyPDF
    else
      match dictFind cols "idx" with
      | some idxv =>
        .ok { index := idxv, cols := cols.filter (fun c => ¬ c.1 == "idx") }
      | none =>
        .ok { index := (List.range (storedNRows cols)).map
                (fun i => PVal.i (Int.ofNat i)),
              cols := cols }

/-! ## Concrete states used by the individual claims -/

deriving instance DecidableEq for Except

/-- The empty catalog right after `_initialize_tables` (AUTOINCREMENT
counters start at 1). -/
def emptyCohort : CohortDB :=
  { accessions := [], nextAID := 1, aliases := [], metadata := [],
    raw_files := [], nextFID := 1, aid_files := [], cache := [] }

/-- C1 input: one accession with one metadata pair and one file. -/
def accC1 : Accession :=
  { name := "S1", metadata := [("age", "23")], files := ["a.fastq"] }

/-- The value object `add_accession_body emptyCohort accC1` (the dead
body of the method) returns. -/
def outC1 : AccessionOut :=
  { name := "S1", metadata := [("age", .s "23"), ("AID", .i 1)],
    files := [] }

/-- The catalog state after `add_accession_body emptyCohort accC1`. -/
def dbC1post : CohortDB :=
  { accessions := [(1, "S1")], nextAID := 2, aliases := [],
    metadata := [(1, "age", "23")], raw_files := [(1, "a.fastq")],
    nextFID := 2, aid_files := [], cache := [] }

/-- C1: the code evaluated at the failing input.  Adding an Accession
with metadata `{age: "23"}` and files `["a.fastq"]` to an empty catalog
via `add_accession` raises `AttributeError` at
`with self._bulk_transaction()` (Cohort.py line 168; the attribute does
not exist — the context manager is `Freezable.bulk_transaction`), so the
claimed round trip never starts.  Moreover even the method's dead body,
run under the intended context manager, returns an object whose file
list is empty (the paths go into `raw_files` with no `aid_files` link,
while `__getitem__` reads files through the `files` view) and whose
metadata has gained the key `'AID'` — so the round trip would fail there
too. -/
theorem C1_attribute_error_bug :
    add_accession emptyCohort accC1 = .error .attributeError ∧
    add_accession_body emptyCohort accC1 = .ok (outC1, dbC1post) ∧
    outC1.files = [] ∧ accC1.files = ["a.fastq"] ∧
    dictFind outC1.metadata "AID" = some (.i 1) ∧
    dictFind accC1.metadata "AID" = none := by
  refine ⟨rfl, by decide, by decide, by decide, by decide, by decide⟩

/-- C2 counterexample state: a catalog with one accession, one metadata
row usable as an alias column, and a nonempty `_get_AID` cache. -/
def dbC2x : CohortDB :=
  { accessions := [(1, "A")], nextAID := 2, aliases := [],
    metadata := [(1, "c", "xyz")],
    raw_files := [], nextFID := 1, aid_files := [],
    cache := [(.str "A", 1)] }

/-- C2 counterexample: invoking `alias_column` raises `AttributeError`
at `with self._bulk_transaction()` (Cohort.py line 242) before any
statement of its body runs, so it neither inserts an Alias nor clears
the `_get_AID` cache: the connection state and cache are exactly the
pre-call ones, and the cache still holds its entry — contradicting the
claim that the cache is cleared in full after this operation. -/
theorem C2_counterexample :
    alias_column dbC2x "c" 3 = .error .attributeError ∧
    dbC2x.cache = [(.str "A", 1)] ∧
    [((.str "A" : Ident), 1)] ≠ ([] : List (Ident × Nat)) := by
  refine ⟨rfl, by decide, by decide⟩

/-- C4 failing state: two accessions whose metadata under key `col`
propose the same candidate alias value `xyz` for two different AIDs. -/
def dbC4 : CohortDB :=
  { accessions := [(1, "A"), (2, "B")], nextAID := 3, aliases := [],
    metadata := [(1, "col", "xyz"), (2, "col", "xyz")],
    raw_files := [], nextFID := 1, aid_files := [], cache := [] }

/-- C4: the code evaluated at the failing input.  `alias_column` raises
`AttributeError` at `with self._bulk_transaction()` (Cohort.py line 242)
before any collision handling runs, so the claimed skip-and-warn
behavior can never happen.  Moreover even the method's dead body, run
under the intended context manager, is broken the same way the claim
says it is not: the candidate `xyz` proposed for AIDs 1 and 2 IS
inserted as an alias (for the last AID, 2) with NO warning, because
`alias_dict` collapses duplicates before
`alias_counts = Counter(alias_dict.keys())` is taken, so every count is
1 and the `count > 1` collision branch can never fire. -/
theorem C4_alias_column_bug :
    alias_column dbC4 "col" 3 = .error .attributeError ∧
    alias_column_body dbC4 "col" 3 =
      .ok ({ dbC4 with aliases := [("xyz", 2)] }, ([] : List Warn)) := by
  refine ⟨rfl, by decide⟩

/-- C5 counterexample: on an empty catalog, sampling with replacement
raises `TypeError` when the generator is consumed (`fetchone()` returns
`None` and `fetchone()[0]` fails), contradicting "never raises for any n
regardless of the catalog's population size". -/
theorem C5_counterexample :
    random_accessions emptyCohort 1 true [] [0] = .error .typeError := by
  decide

/-- C5 duplicate-state: one accession, two draws landing on it. -/
def dbC5s : CohortDB :=
  { accessions := [(1, "S")], nextAID := 2, aliases := [], metadata := [],
    raw_files := [], nextFID := 1, aid_files := [], cache := [] }

/-- C6 state: one accession whose name differs from the query only by
ASCII case. -/
def dbC6 : CohortDB :=
  { accessions := [(1, "ABC")], nextAID := 2, aliases := [],
    metadata := [], raw_files := [], nextFID := 1, aid_files := [],
    cache := [] }

/-- C6 counterexample: `search_names` uses SQL `LIKE`, which is
case-insensitive on ASCII letters by default, so searching "abc" returns
the accession "ABC", while the claim's case-sensitive literal substring
match returns nothing. -/
theorem C6_counterexample :
    search_names dbC6 "abc" = ["ABC"] ∧
    search_names_spec dbC6 "abc" = [] ∧
    search_names dbC6 "abc" ≠ search_names_spec dbC6 "abc" := by
  refine ⟨by decide, by decide, by decide⟩

/-- C8: the code evaluated at the failing input.  Setting key `k` to the
non-scalar value `True` makes `guess_type` return `bool`; the check
raises `TypeError('val must be in [int, float, str], ...')`, but that
raise happens inside `_dict`'s own `try ... except TypeError`, which
catches it and raises `ValueError('k not in database')` instead — the
key-not-found error class and message, not a type-mismatch error.
Nothing is stored (the raise precedes the INSERT). -/
theorem C8_type_mismatch_swallowed :
    dict_set ([] : GlobalsTab) "k" (.b true) =
      .error (.valueError "k not in database") ∧
    dict_set_inner ([] : GlobalsTab) "k" (.b true) = .error .typeError := by
  refine ⟨by decide, by decide⟩

/-- C9 input: an int64-dtyped but non-sequential index. -/
def dC9 : PDF := { index := [.i 5, .i 3], cols := [("a", [.i 1, .i 2])] }

/-- C9: the code evaluated at the failing input.  Every `_bcolz` call —
getter and setter alike — raises `AttributeError` dereferencing
`self._m80_type` (Freezable.py lines 119 and 189: `__init__` only ever
assigns `_m80_dtype`), before any payload I/O, so the claimed round trip
never starts.  Moreover even the dead payload logic preserves the index
as an `idx` column only when the index DTYPE is not int64 — not when it
is non-sequential — so the non-sequential int64 index `[5, 3]` would be
dropped at store time and read back as the default range index `[0, 1]`:
the round trip fails there too. -/
theorem C9_bcolz_attribute_bug :
    bcolz_put ([] : BStore) "t" dC9 = .error .attributeError ∧
    bcolz_get ([] : BStore) "t" = .error .attributeError ∧
    bcolz_get_body (bcolz_put_body ([] : BStore) "t" dC9) "t" =
      .ok { index := [.i 0, .i 1], cols := [("a", [.i 1, .i 2])] } ∧
    bcolz_get_body (bcolz_put_body ([] : BStore) "t" dC9) "t" ≠ .ok dC9 := by
  refine ⟨rfl, rfl, by decide, by decide⟩

/-- C10 counterexample state: alias `a` maps to accession X's AID 1, but
`a` is also the NAME of a second accession (AID 2) — reachable by adding
X, aliasing `a` to it via `alias_column` with `min_alias_length=1`, and
then adding an accession named `a`. -/
def dbC10 : CohortDB :=
  { accessions := [(1, "X"), (2, "a")], nextAID := 3,
    aliases := [("a", 1)], metadata := [],
    raw_files := [], nextFID := 1, aid_files := [], cache := [] }

/-- The state after `del dbC10["X"]`. -/
def dbC10post : CohortDB :=
  { accessions := [(2, "a")], nextAID := 3, aliases := [("a", 1)],
    metadata := [], raw_files := [], nextFID := 1, aid_files := [],
    cache := [] }

/-- C10 counterexample: after deleting X the alias row `(a, 1)` does
remain, but resolving `a` returns 2 (the surviving accession NAMED `a` —
name lookup precedes alias lookup), not the deleted AID 1, and getting
`a` succeeds instead of raising — so the claim's universally quantified
consequences fail on this state. -/
theorem C10_counterexample :
    delitem dbC10 (.str "X") = .ok dbC10post ∧
    ("a", 1) ∈ dbC10post.aliases ∧
    getAID dbC10post (.str "a") =
      .ok (2, { dbC10post with cache := [(.str "a", 2)] }) ∧
    (2 : Nat) ≠ 1 ∧
    getitem dbC10post (.str "a") =
      .ok ({ name := "a", metadata := [("AID", .i 2)], files := [] },
        { dbC10post with cache := [(.str "a", 2)] }) := by
  refine ⟨by decide, by decide, by decide, by decide, by decide⟩

/-! ## Characterizing `LIKE '%s%'` for wildcard-free `s` -/

theorem likeMatchF_fuel :
    ∀ (n : Nat) (p t : List Char) (f f' : Nat),
      p.length + t.length ≤ n → n < f → n < f' →
      likeMatchF f p t = likeMatchF f' p t := by
  intro n
  induction n with
  | zero =>
    intro p t f f' hm hf hf'
    cases p with
    | cons a as => simp [List.length_cons] at hm
    | nil =>
      cases t with
      | cons b bs => simp [List.length_cons] at hm
      | nil =>
        cases f with
        | zero => omega
        | succ a =>
          cases f' with
          | zero => omega
          | succ b => rfl
  | succ n ih =>
    intro p t f f' hm hf hf'
    cases f with
    | zero => omega
    | succ a =>
      cases f' with
      | zero => omega
      | succ b =>
        cases p with
        | nil => rfl
        | cons p ps =>
          cases t with
          | nil =>
            simp only [likeMatchF]
            have h1 : likeMatchF a ps [] = likeMatchF b ps [] := by
              apply ih ps [] a b ?_ (by omega) (by omega)
              simp only [List.length_cons] at hm
              simp only [List.length_nil] at hm ⊢
              omega
            rw [h1]
          | cons c ts =>
            simp only [likeMatchF]
            by_cases hp : p = '%'
            · simp only [if_pos hp]
              have h1 : likeMatchF a ps (c :: ts) = likeMatchF b ps (c :: ts) := by
                apply ih ps (c :: ts) a b ?_ (by omega) (by omega)
                simp only [List.length_cons] at hm ⊢
                omega
              have h2 : likeMatchF a (p :: ps) ts = likeMatchF b (p :: ps) ts := by
                apply ih (p :: ps) ts a b ?_ (by omega) (by omega)
                simp only [List.length_cons] at hm ⊢
                omega
              rw [h1, h2]
            · simp only [if_neg hp]
              have h3 : likeMatchF a ps ts = likeMatchF b ps ts := by
                apply ih ps ts a b ?_ (by omega) (by omega)
                simp only [List.length_cons] at hm ⊢
                omega
              rw [h3]

theorem likeMatchF_eq_likeMatch (f : Nat) (p t : List Char)
    (hf : p.length + t.length < f) : likeMatchF f p t = likeMatch p t :=
  likeMatchF_fuel (p.length + t.length) p t f (p.length + t.length + 1)
    le_rfl hf (by omega)

/-- One-step unfolding of `likeMatch` on a nonempty pattern and empty
text. -/
theorem likeMatch_cons_nil (p : Char) (ps : List Char) :
    likeMatch (p :: ps) [] =
      if p = '%' then likeMatch ps [] else false := by
  show likeMatchF ((p :: ps).length + List.length [] + 1) (p :: ps) [] = _
  simp only [likeMatchF]
  rw [likeMatchF_eq_likeMatch _ ps []
    (by simp only [List.length_cons, List.length_nil]; omega)]

/-- One-step unfolding of `likeMatch` on a nonempty pattern and nonempty
text. -/
theorem likeMatch_cons_cons (p : Char) (ps : List Char) (c : Char)
    (ts : List Char) :
    likeMatch (p :: ps) (c :: ts) =
      if p = '%' then
        likeMatch ps (c :: ts) || likeMatch (p :: ps) ts
      else
        (if p = '_' then true else sqCharEq p c) && likeMatch ps ts := by
  show likeMatchF ((p :: ps).length + (c :: ts).length + 1) (p :: ps) (c :: ts) = _
  simp only [likeMatchF]
  rw [likeMatchF_eq_likeMatch _ ps (c :: ts)
      (by simp only [List.length_cons]; omega),
    likeMatchF_eq_likeMatch _ (p :: ps) ts
      (by simp only [List.length_cons]; omega),
    likeMatchF_eq_likeMatch _ ps ts
      (by simp only [List.length_cons]; omega)]

theorem likeMatch_nil (t : List Char) : likeMatch [] t = t.isEmpty := rfl

/-- A bare `%` matches every text. -/
theorem likeMatch_pct_all (u : List Char) : likeMatch ['%'] u = true := by
  induction u with
  | nil => rw [likeMatch_cons_nil]; rfl
  | cons c ts ih =>
    rw [likeMatch_cons_cons, if_pos rfl, ih]
    simp

/-- A leading `%` matches iff the rest of the pattern matches some
suffix. -/
theorem likeMatch_pct (ps t : List Char) :
    likeMatch ('%' :: ps) t = t.tails.any (fun u => likeMatch ps u) := by
  induction t with
  | nil => rw [likeMatch_cons_nil, if_pos rfl]; simp
  | cons c ts ih =>
    rw [likeMatch_cons_cons, if_pos rfl]
    simp only [List.tails_cons, List.any_cons]
    rw [ih]

/-- A wildcard-free pattern followed by `%` matches iff the pattern is a
case-insensitive prefix of the text. -/
theorem likeMatch_lit_pct (s : List Char)
    (hs : ∀ c ∈ s, c ≠ '%' ∧ c ≠ '_') :
    ∀ u : List Char, likeMatch (s ++ ['%']) u = ciPref s u := by
  induction s with
  | nil => intro u; simpa [ciPref] using likeMatch_pct_all u
  | cons a as ih =>
    intro u
    have ha := hs a (List.mem_cons_self a as)
    cases u with
    | nil => rw [List.cons_append, likeMatch_cons_nil, if_neg ha.1]; rfl
    | cons b bs =>
      have has : ∀ c ∈ as, c ≠ '%' ∧ c ≠ '_' :=
        fun c hc => hs c (List.mem_cons_of_mem a hc)
      rw [List.cons_append, likeMatch_cons_cons, if_neg ha.1, if_neg ha.2]
      simp only [ciPref, if_neg ha.2]
      rw [ih has bs]

theorem any_congr {α : Type} (l : List α) (f g : α → Bool)
    (h : ∀ x ∈ l, f x = g x) : l.any f = l.any g := by
  induction l with
  | nil => rfl
  | cons x xs ih =>
    simp only [List.any_cons]
    rw [h x (List.mem_cons_self x xs),
      ih (fun y hy => h y (List.mem_cons_of_mem x hy))]

/-- For a wildcard-free `s`, `LIKE '%s%'` is exactly case-insensitive
substring occurrence. -/
theorem likeMatch_pct_lit_pct (s : List Char)
    (hs : ∀ c ∈ s, c ≠ '%' ∧ c ≠ '_') (t : List Char) :
    likeMatch ('%' :: (s ++ ['%'])) t = ciOccurs s t := by
  rw [likeMatch_pct, ciOccurs]
  exact any_congr _ _ _ (fun u _ => likeMatch_lit_pct s hs u)

theorem string_data_append (a b : String) : (a ++ b).data = a.data ++ b.data := by
  cases a; cases b; rfl

/-- C6 (amended): for every query free of the `LIKE` wildcards `%` and
`_`, `search_names` returns exactly the accession names containing the
query as a substring up to ASCII case folding, followed by the aliases
likewise — SQLite's default `LIKE` is case-insensitive on ASCII letters,
not case-sensitive. -/
theorem C6_search_names (db : CohortDB) (s : String)
    (hs : ∀ c ∈ s.data, c ≠ '%' ∧ c ≠ '_') :
    search_names db s =
      (db.accessions.filter (fun r => ciOccurs s.data r.2.data)).map
          (fun r => r.2) ++
        (db.aliases.filter (fun r => ciOccurs s.data r.1.data)).map
          (fun r => r.1) := by
  have hdata : ("%" ++ s ++ "%").data = '%' :: (s.data ++ ['%']) := by
    rw [string_data_append, string_data_append]
    rfl
  simp only [search_names, hdata]
  rw [List.filter_congr
      (fun (r : Nat × String) _ => likeMatch_pct_lit_pct s.data hs r.2.data),
    List.filter_congr
      (fun (r : String × Nat) _ => likeMatch_pct_lit_pct s.data hs r.1.data)]

/-- C6 witness: the amended statement applied at a concrete catalog and
the wildcard-free query "bc". -/
theorem C6_witness :
    search_names dbC6 "bc" =
      (dbC6.accessions.filter (fun r => ciOccurs "bc".data r.2.data)).map
          (fun r => r.2) ++
        (dbC6.aliases.filter (fun r => ciOccurs "bc".data r.1.data)).map
          (fun r => r.1) :=
  C6_search_names dbC6 "bc" (by decide)

/-! ## C2: cache invalidation -/

theorem getAID_fields (db : CohortDB) (id : Ident) (aid : Nat)
    (db1 : CohortDB) (h : getAID db id = .ok (aid, db1)) :
    db1.accessions = db.accessions ∧ db1.aliases = db.aliases ∧
    db1.metadata = db.metadata ∧ db1.raw_files = db.raw_files ∧
    db1.aid_files = db.aid_files ∧ db1.nextAID = db.nextAID ∧
    db1.nextFID = db.nextFID := by
  unfold getAID at h
  cases hc : cacheLookup db id with
  | some a =>
    rw [hc] at h
    simp only [Except.ok.injEq, Prod.mk.injEq] at h
    rw [← h.2]
    exact ⟨rfl, rfl, rfl, rfl, rfl, rfl, rfl⟩
  | none =>
    rw [hc] at h
    cases hr : resolveFresh db id with
    | none => rw [hr] at h; exact absurd h (by simp)
    | some a =>
      rw [hr] at h
      cases id with
      | obj s =>
        simp only [Except.ok.injEq, Prod.mk.injEq] at h
        rw [← h.2]
        exact ⟨rfl, rfl, rfl, rfl, rfl, rfl, rfl⟩
      | str s =>
        simp only [Except.ok.injEq, Prod.mk.injEq] at h
        rw [← h.2]
        exact ⟨rfl, rfl, rfl, rfl, rfl, rfl, rfl⟩
      | int k =>
        simp only [Except.ok.injEq, Prod.mk.injEq] at h
        rw [← h.2]
        exact ⟨rfl, rfl, rfl, rfl, rfl, rfl, rfl⟩

theorem delitem_ok (db : CohortDB) (id : Ident) (db' : CohortDB)
    (h : delitem db id = .ok db') :
    ∃ aid db1, getAID db id = .ok (aid, db1) ∧
      db' = { db1 with
        accessions := db1.accessions.filter (fun r => ¬ r.1 == aid),
        metadata := db1.metadata.filter (fun r => ¬ r.1 == aid),
        aid_files := db1.aid_files.filter (fun r => ¬ r.1 == aid),
        cache := [] } := by
  unfold delitem at h
  cases hr : getAID db id with
  | error e => rw [hr] at h; exact absurd h (by simp)
  | ok p =>
    obtain ⟨aid, db1⟩ := p
    rw [hr] at h
    simp only [Except.ok.injEq] at h
    exact ⟨aid, db1, rfl, h.symm⟩

theorem delitem_ok_str (db : CohortDB) (id : Ident) (db' : CohortDB)
    (aid : Nat) (dbx : CohortDB)
    (h : delitem db id = .ok db')
    (hres : getAID db id = .ok (aid, dbx)) :
    db'.cache = [] ∧ db'.aliases = db.aliases ∧
    db'.accessions = db.accessions.filter (fun r => ¬ r.1 == aid) := by
  obtain ⟨aid0, db1, hres0, hdb'⟩ := delitem_ok db id db' h
  rw [hres] at hres0
  simp only [Except.ok.injEq, Prod.mk.injEq] at hres0
  obtain ⟨hb1acc, hb1ali, _, _, _, _, _⟩ :=
    getAID_fields db id aid dbx hres
  refine ⟨by rw [hdb'], ?_, ?_⟩
  · rw [hdb']
    show db1.aliases = db.aliases
    rw [← hres0.2, hb1ali]
  · rw [hdb']
    show db1.accessions.filter (fun r => ¬ r.1 == aid0) =
      db.accessions.filter (fun r => ¬ r.1 == aid)
    rw [← hres0.1, ← hres0.2, hb1acc]

/-- C2 (amended): the inserting operations — `add_accession`,
`add_accessions`, `alias_column` — raise `AttributeError` at
`self._bulk_transaction()` before touching the catalog, so they mutate
nothing and in particular leave the `_get_AID` cache exactly as it was;
the operations decorated with `invalidates_cache` — `__delitem__` and
`drop_aliases` — do clear the cache in full; in particular, after a
successful `del cohort[name]` a subsequent resolution of `name` fails
with the `NameError` not-found error even though the same name resolved
successfully before the deletion, provided `name` is not also an alias,
no surviving accession bears it, and it does not resolve through the
numeric-AID fallback. -/
theorem C2_cache_invalidation :
    (∀ (db : CohortDB) (acc : Accession),
       add_accession db acc = .error .attributeError) ∧
    (∀ (db : CohortDB) (colname : String) (minLen : Nat),
       alias_column db colname minLen = .error .attributeError) ∧
    (∀ (db : CohortDB) (id : Ident) (db' : CohortDB),
       delitem db id = .ok db' → db'.cache = []) ∧
    (∀ db : CohortDB, (drop_aliases db).cache = []) ∧
    (∀ (db : CohortDB) (nm : String) (aid : Nat) (db' : CohortDB),
       (dictFind db.cache (.str nm) = none ∨
         dictFind db.cache (.str nm) = some aid) →
       lookupName db nm = some aid →
       (∀ r ∈ db.accessions, r.2 = nm → r.1 = aid) →
       (∀ r ∈ db.aliases, r.1 ≠ nm) →
       (strToNat? nm).all (fun k => !(aidExists db k) || k == aid) = true →
       delitem db (.str nm) = .ok db' →
       (∃ db1, getAID db (.str nm) = .ok (aid, db1)) ∧
       getAID db' (.str nm) = .error .nameError) := by
  refine ⟨fun _ _ => rfl, fun _ _ _ => rfl, ?_, fun db => rfl, ?_⟩
  · intro db id db' h
    obtain ⟨aid, db1, _, hdb'⟩ := delitem_ok db id db' h
    rw [hdb']
  · intro db nm aid db' hcache hlook honly halias hnum hdel
    have hget : getAID db (.str nm) = .ok (aid,
        if dictFind db.cache (.str nm) = some aid then db
        else { db with cache := db.cache ++ [(.str nm, aid)] }) := by
      rcases hcache with hc | hc
      · rw [if_neg (show ¬ dictFind db.cache (.str nm) = some aid by
          rw [hc]; exact fun hcon => by cases hcon)]
        simp only [getAID, cacheLookup, hc, resolveFresh, hlook]
      · rw [if_pos hc]
        simp only [getAID, cacheLookup, hc]
    obtain ⟨hcache', hali', hacc'⟩ :=
      delitem_ok_str db (.str nm) db' aid _ hdel hget
    refine ⟨⟨_, hget⟩, ?_⟩
    have hc' : cacheLookup db' (.str nm) = none := by
      simp only [cacheLookup]
      rw [hcache']
      rfl
    have hn : lookupName db' nm = none := by
      unfold lookupName
      rw [hacc']
      have hall : ∀ r ∈ db.accessions.filter (fun r => ¬ r.1 == aid),
          ¬ ((fun r => r.2 == nm) r = true) := by
        intro r hr hcon
        have hmem := List.mem_filter.mp hr
        have h2 : r.2 = nm := by simpa using hcon
        have := honly r hmem.1 h2
        simp [this] at hmem
      rw [List.find?_eq_none.mpr hall]
      rfl
    have ha : lookupAlias db' nm = none := by
      unfold lookupAlias
      rw [hali']
      have hall : ∀ r ∈ db.aliases, ¬ ((fun r => r.1 == nm) r = true) := by
        intro r hr hcon
        exact halias r hr (by simpa using hcon)
      rw [List.find?_eq_none.mpr hall]
      rfl
    have hr' : resolveFresh db' (.str nm) = none := by
      simp only [resolveFresh, hn, ha]
      cases hk : strToNat? nm with
      | none => rfl
      | some k =>
        rw [hk] at hnum
        simp only [Option.all_some, Bool.or_eq_true, Bool.not_eq_true',
          beq_iff_eq] at hnum
        have hex : aidExists db' k = false := by
          rw [Bool.eq_false_iff]
          intro hcon
          unfold aidExists at hcon
          rw [hacc'] at hcon
          obtain ⟨r, hrmem, hrk⟩ := List.any_eq_true.mp hcon
          have hmem := List.mem_filter.mp hrmem
          have hrk' : r.1 = k := by simpa using hrk
          rcases hnum with hnum | hnum
          · have hdbk : aidExists db k = true :=
              List.any_eq_true.mpr ⟨r, hmem.1, hrk⟩
            rw [hnum] at hdbk
            cases hdbk
          · rw [hnum] at hrk'
            simp [hrk'] at hmem
        show (if aidExists db' k = true then some k else none) = none
        rw [hex]
        rfl
    simp only [getAID, hc', hr']

/-- C2 concrete state for the witness: one accession, empty cache. -/
def dbC2w : CohortDB :=
  { accessions := [(1, "S1")], nextAID := 2, aliases := [],
    metadata := [], raw_files := [], nextFID := 1, aid_files := [],
    cache := [] }

/-- The state after `del dbC2w["S1"]`. -/
def dbC2wPost : CohortDB :=
  { accessions := [], nextAID := 2, aliases := [], metadata := [],
    raw_files := [], nextFID := 1, aid_files := [], cache := [] }

/-- C2 witness: the amended statement applied at the concrete catalog
`dbC2w`: the deletion clears the cache, resolution succeeded before the
deletion, and fails with `NameError` afterwards. -/
theorem C2_witness :
    (∃ db1, getAID dbC2w (.str "S1") = .ok (1, db1)) ∧
    getAID dbC2wPost (.str "S1") = .error .nameError ∧
    dbC2wPost.cache = [] := by
  have h := C2_cache_invalidation
  have hdel : delitem dbC2w (.str "S1") = .ok dbC2wPost := by decide
  have h3 := h.2.2.2.2 dbC2w "S1" 1 dbC2wPost (Or.inl (by decide))
    (by decide) (by decide) (by decide) (by decide) hdel
  exact ⟨h3.1, h3.2, h.2.2.1 dbC2w (.str "S1") dbC2wPost hdel⟩

/-! ## C10: the frame effect of `__delitem__` on the aliases table -/

/-- C10 (amended): `__delitem__` deletes from `accessions`, `metadata`
and `aid_files` but never touches `aliases`: after deleting accession X,
the alias row `(a, AID of X)` is still present; and provided `a` is not
the name of a surviving accession (name lookup precedes alias lookup in
`_get_AID`), resolving `a` still returns the deleted AID, membership
still reports `True`, and `cohort[a]` raises `TypeError` (from unpacking
the empty name query), not the `NameError` not-found error. -/
theorem C10_delete_frame (db : CohortDB) (idX : Ident) (aidX : Nat)
    (a : String) (db' db1 : CohortDB)
    (hres : getAID db idX = .ok (aidX, db1))
    (hdel : delitem db idX = .ok db')
    (halias : lookupAlias db a = some aidX)
    (hnotname : ∀ r ∈ db.accessions, r.2 = a → r.1 = aidX) :
    db'.aliases = db.aliases ∧
    lookupAlias db' a = some aidX ∧
    getAID db' (.str a) =
      .ok (aidX, { db' with cache := [(.str a, aidX)] }) ∧
    (containsDB db' (.str a)).1 = true ∧
    getitem db' (.str a) = .error .typeError := by
  obtain ⟨hcache', hali', hacc'⟩ :=
    delitem_ok_str db idX db' aidX db1 hdel hres
  have hA : lookupAlias db' a = some aidX := by
    unfold lookupAlias
    rw [hali']
    exact halias
  have hc' : cacheLookup db' (.str a) = none := by
    simp only [cacheLookup]
    rw [hcache']
    rfl
  have hn : lookupName db' a = none := by
    unfold lookupName
    rw [hacc']
    have hall : ∀ r ∈ db.accessions.filter (fun r => ¬ r.1 == aidX),
        ¬ ((fun r => r.2 == a) r = true) := by
      intro r hr hcon
      have hmem := List.mem_filter.mp hr
      have h2 : r.2 = a := by simpa using hcon
      have := hnotname r hmem.1 h2
      simp [this] at hmem
    rw [List.find?_eq_none.mpr hall]
    rfl
  have hres' : resolveFresh db' (.str a) = some aidX := by
    simp only [resolveFresh, hn, hA]
  have hgetA : getAID db' (.str a) =
      .ok (aidX, { db' with cache := [(.str a, aidX)] }) := by
    simp only [getAID, hc', hres']
    rw [hcache']
    rfl
  have hfind : ({ db' with cache := [(.str a, aidX)] } :
      CohortDB).accessions.find? (fun r => r.1 == aidX) = none := by
    show db'.accessions.find? (fun r => r.1 == aidX) = none
    rw [hacc']
    refine List.find?_eq_none.mpr ?_
    intro r hr hcon
    have hmem := List.mem_filter.mp hr
    rw [hcon] at hmem
    simp at hmem
  refine ⟨hali', hA, hgetA, ?_, ?_⟩
  · simp only [containsDB, hgetA]
  · simp only [getitem, hgetA, hfind]

/-- C10 witness state: one accession X with a pure alias `al`. -/
def dbC10w : CohortDB :=
  { accessions := [(1, "X")], nextAID := 2, aliases := [("al", 1)],
    metadata := [], raw_files := [], nextFID := 1, aid_files := [],
    cache := [] }

/-- The state after `del dbC10w["X"]`. -/
def dbC10wPost : CohortDB :=
  { accessions := [], nextAID := 2, aliases := [("al", 1)],
    metadata := [], raw_files := [], nextFID := 1, aid_files := [],
    cache := [] }

/-- C10 witness: the amended statement applied at the concrete state
`dbC10w`. -/
theorem C10_witness :
    dbC10wPost.aliases = dbC10w.aliases ∧
    lookupAlias dbC10wPost "al" = some 1 ∧
    getAID dbC10wPost (.str "al") =
      .ok (1, { dbC10wPost with cache := [(.str "al", 1)] }) ∧
    (containsDB dbC10wPost (.str "al")).1 = true ∧
    getitem dbC10wPost (.str "al") = .error .typeError :=
  C10_delete_frame dbC10w (.str "X") 1 "al" dbC10wPost
    { dbC10w with cache := [(.str "X", 1)] }
    (by decide) (by decide) (by decide) (by decide)

/-! ## C1: `add_accession` followed by `__getitem__` -/

theorem foldl_dictUpd_nodup {κ β : Type} [DecidableEq κ] :
    ∀ (P acc : List (κ × β)),
      (∀ p ∈ P, ∀ q ∈ acc, p.1 ≠ q.1) →
      (P.map Prod.fst).Nodup →
      P.foldl (fun d kv => dictUpd d kv.1 kv.2) acc = acc ++ P := by
  intro P
  induction P with
  | nil => intro acc _ _; simp
  | cons kv P' ih =>
    intro acc hdisj hnd
    simp only [List.foldl_cons]
    have hup : dictUpd acc kv.1 kv.2 = acc ++ [kv] := by
      unfold dictUpd
      rw [if_neg ?_]
      intro hcon
      obtain ⟨q, hq, hq2⟩ := List.any_eq_true.mp hcon
      have hq2' : q.1 = kv.1 := by simpa using hq2
      exact hdisj kv (List.mem_cons_self _ _) q hq hq2'.symm
    simp only [List.map_cons, List.nodup_cons] at hnd
    rw [hup, ih (acc ++ [kv]) ?_ hnd.2]
    · simp
    · intro p hp q hq
      rcases List.mem_append.mp hq with hq | hq
      · exact hdisj p (List.mem_cons_of_mem _ hp) q hq
      · have hqkv : q = kv := by simpa using hq
        subst hqkv
        intro hcon
        exact hnd.1 (by rw [← hcon]; exact List.mem_map_of_mem _ hp)

theorem meta_fold (aid : Nat) :
    ∀ (P T : List (String × String)) (rows0 : List (Nat × String × String)),
      (∀ r ∈ rows0, r.1 ≠ aid) →
      (∀ p ∈ P, ∀ q ∈ T, p.1 ≠ q.1) →
      (P.map Prod.fst).Nodup →
      P.foldl
        (fun rows kv =>
          rows.filter (fun r => ¬ r == (aid, kv.1, kv.2)) ++
            [(aid, kv.1, kv.2)])
        (rows0 ++ T.map (fun kv => (aid, kv.1, kv.2))) =
      rows0 ++ (T ++ P).map (fun kv => (aid, kv.1, kv.2)) := by
  intro P
  induction P with
  | nil => intro T rows0 _ _ _; simp
  | cons kv P' ih =>
    intro T rows0 h0 hdisj hnd
    simp only [List.foldl_cons]
    have hfil : (rows0 ++ T.map (fun kv => (aid, kv.1, kv.2))).filter
        (fun r => ¬ r == (aid, kv.1, kv.2)) =
        rows0 ++ T.map (fun kv => (aid, kv.1, kv.2)) := by
      rw [List.filter_append]
      congr 1
      · refine List.filter_eq_self.mpr ?_
        intro r hr
        have hne : r ≠ (aid, kv.1, kv.2) := by
          intro hcon
          exact h0 r hr (by rw [hcon])
        simpa using hne
      · refine List.filter_eq_self.mpr ?_
        intro r hr
        obtain ⟨q, hq, hq2⟩ := List.mem_map.mp hr
        have hne : r ≠ (aid, kv.1, kv.2) := by
          intro hcon
          rw [hcon] at hq2
          have := hdisj kv (List.mem_cons_self _ _) q hq
          exact this (by
            have := congrArg (fun p => p.2.1) hq2
            simpa using this.symm)
        simpa using hne
    rw [hfil]
    simp only [List.map_cons, List.nodup_cons] at hnd
    have hstep : rows0 ++ T.map (fun kv => (aid, kv.1, kv.2)) ++
        [(aid, kv.1, kv.2)] =
        rows0 ++ (T ++ [kv]).map (fun kv => (aid, kv.1, kv.2)) := by
      simp [List.map_append]
    rw [hstep, ih (T ++ [kv]) rows0 h0 ?_ hnd.2]
    · simp
    · intro p hp q hq
      rcases List.mem_append.mp hq with hq | hq
      · exact hdisj p (List.mem_cons_of_mem _ hp) q hq
      · have hqkv : q = kv := by simpa using hq
        subst hqkv
        intro hcon
        exact hnd.1 (by rw [← hcon]; exact List.mem_map_of_mem _ hp)

theorem dictFind_map_mval (P : List (String × String)) (k : String) :
    dictFind (P.map (fun kv => (kv.1, MVal.s kv.2))) k =
      (dictFind P k).map MVal.s := by
  induction P with
  | nil => rfl
  | cons kv P' ih =>
    unfold dictFind at ih ⊢
    rw [List.map_cons]
    by_cases hk : kv.1 = k
    · rw [List.find?_cons_of_pos _ (by simpa using hk),
        List.find?_cons_of_pos _ (by simpa using hk)]
      rfl
    · rw [List.find?_cons_of_neg _ (by simpa using hk),
        List.find?_cons_of_neg _ (by simpa using hk)]
      exact ih

theorem insertRawFiles_fields :
    ∀ (fs : List String) (d : CohortDB),
      ((insertRawFiles d fs).accessions = d.accessions) ∧
      ((insertRawFiles d fs).metadata = d.metadata) ∧
      ((insertRawFiles d fs).aid_files = d.aid_files) ∧
      ((insertRawFiles d fs).cache = d.cache) := by
  intro fs
  induction fs with
  | nil => intro d; exact ⟨rfl, rfl, rfl, rfl⟩
  | cons f fs ih =>
    intro d
    simp only [insertRawFiles, List.foldl_cons]
    by_cases hf : d.raw_files.any (fun r => r.2 == f)
    · rw [if_pos hf]
      exact ih d
    · rw [if_neg hf]
      exact ih _

/-- `__getitem__` at a state whose rows for `aid` are exactly the pairs
of `M` and whose `aid_files` has no row for `aid`. -/
theorem getitem_clean (db : CohortDB) (nm : String) (aid : Nat)
    (M : List (String × String))
    (hl : lookupName db nm = some aid)
    (hfind : db.accessions.find? (fun r => r.1 == aid) = some (aid, nm))
    (hm : db.metadata.filter (fun r => r.1 == aid) =
      M.map (fun kv => (aid, kv.1, kv.2)))
    (hkeys : (M.map Prod.fst).Nodup)
    (hfl : db.aid_files.filter (fun r => r.1 == aid) = []) :
    getitem db (.obj nm) = .ok
      ({ name := nm,
         metadata := dictUpd (M.map (fun kv => (kv.1, MVal.s kv.2)))
           "AID" (.i aid),
         files := [] }, db) := by
  have hres : resolveFresh db (.obj nm) = some aid := by
    simp only [resolveFresh, hl]
  have hmm : (M.map (fun kv => (aid, kv.1, kv.2))).map
      (fun r => (r.2.1, MVal.s r.2.2)) =
      M.map (fun kv => (kv.1, MVal.s kv.2)) := by
    rw [List.map_map]
    rfl
  have hfold : (M.map (fun kv => (kv.1, MVal.s kv.2))).foldl
      (fun d kv => dictUpd d kv.1 kv.2) [] =
      M.map (fun kv => (kv.1, MVal.s kv.2)) := by
    have hk2 : ((M.map (fun kv => (kv.1, MVal.s kv.2))).map Prod.fst).Nodup := by
      rw [List.map_map]
      exact hkeys
    have := foldl_dictUpd_nodup (M.map (fun kv => (kv.1, MVal.s kv.2))) []
      (by intro p _ q hq; cases hq) hk2
    simpa using this
  simp only [getitem, getAID, cacheLookup, hres, hfind, hm, hfl, hmm, hfold,
    List.filterMap_nil]

/-- The dead body of `add_accession`, run under the intended context
manager: adding an Accession with metadata `M` and files `F` under a
fresh name and reading it back would return a value object whose
metadata is `M` extended/overridden with the entry `'AID' ↦ AID`, and
whose file list is EMPTY regardless of `F`: the single-item add records
the paths in `raw_files` but creates no `aid_files` links, and
`__getitem__` reads files through the `files` view.  (The method itself
never reaches this code: it raises `AttributeError` at entry.) -/
theorem add_accession_body_get (db : CohortDB) (acc : Accession)
    (hacc : ∀ r ∈ db.accessions, r.1 < db.nextAID)
    (hmeta : ∀ r ∈ db.metadata, r.1 < db.nextAID)
    (haf : ∀ r ∈ db.aid_files, r.1 < db.nextAID)
    (hfresh : ∀ r ∈ db.accessions, r.2 ≠ acc.name)
    (hkeys : (acc.metadata.map Prod.fst).Nodup) :
    ∃ db' out, add_accession_body db acc = .ok (out, db') ∧
      out.name = acc.name ∧ out.files = [] ∧
      ∀ k, dictFind out.metadata k =
        if k = "AID" then some (MVal.i db.nextAID)
        else (dictFind acc.metadata k).map MVal.s := by
  have h1 : insertName db acc.name =
      { db with
        accessions := db.accessions ++ [(db.nextAID, acc.name)],
        nextAID := db.nextAID + 1 } := by
    unfold insertName
    rw [if_neg ?_]
    intro hcon
    obtain ⟨r, hr, hr2⟩ := List.any_eq_true.mp hcon
    exact hfresh r hr (by simpa using hr2)
  have hpre : db.accessions.find? (fun r => r.2 == acc.name) = none :=
    List.find?_eq_none.mpr (fun r hr hcon => hfresh r hr (by simpa using hcon))
  have hpre2 : db.accessions.find? (fun r => r.1 == db.nextAID) = none := by
    refine List.find?_eq_none.mpr ?_
    intro r hr hcon
    have : r.1 = db.nextAID := by simpa using hcon
    exact absurd (hacc r hr) (by rw [this]; exact Nat.lt_irrefl _)
  have hl1 : lookupName (insertName db acc.name) acc.name =
      some db.nextAID := by
    rw [h1]
    unfold lookupName
    show ((db.accessions ++ [(db.nextAID, acc.name)]).find?
      (fun r => r.2 == acc.name)).map (fun r => r.1) = some db.nextAID
    rw [List.find?_append, hpre, List.find?_cons_of_pos _ (by simp)]
    rfl
  have hres1 : resolveFresh (insertName db acc.name) (.obj acc.name) =
      some db.nextAID := by
    simp only [resolveFresh, hl1]
  -- the state passed to the final `self[accession]`
  obtain ⟨hffacc, hffmeta, hffaf, _⟩ := insertRawFiles_fields acc.files
    (insertMeta (insertName db acc.name) db.nextAID acc.metadata)
  have h3acc : (insertRawFiles
      (insertMeta (insertName db acc.name) db.nextAID acc.metadata)
      acc.files).accessions = db.accessions ++ [(db.nextAID, acc.name)] := by
    rw [hffacc, h1]
    rfl
  have h3meta : (insertRawFiles
      (insertMeta (insertName db acc.name) db.nextAID acc.metadata)
      acc.files).metadata =
      db.metadata ++ acc.metadata.map
        (fun kv => (db.nextAID, kv.1, kv.2)) := by
    rw [hffmeta]
    show acc.metadata.foldl
      (fun rows kv =>
        rows.filter (fun r => ¬ r == (db.nextAID, kv.1, kv.2)) ++
          [(db.nextAID, kv.1, kv.2)])
      (insertName db acc.name).metadata = _
    rw [h1]
    show acc.metadata.foldl _ db.metadata = _
    have := meta_fold db.nextAID acc.metadata [] db.metadata
      (fun r hr => Nat.ne_of_lt (hmeta r hr))
      (by intro p _ q hq; cases hq) hkeys
    simpa using this
  have h3af : (insertRawFiles
      (insertMeta (insertName db acc.name) db.nextAID acc.metadata)
      acc.files).aid_files = db.aid_files := by
    rw [hffaf, h1]
    rfl
  have hl3 : lookupName (insertRawFiles
      (insertMeta (insertName db acc.name) db.nextAID acc.metadata)
      acc.files) acc.name = some db.nextAID := by
    unfold lookupName
    rw [h3acc, List.find?_append, hpre, List.find?_cons_of_pos _ (by simp)]
    rfl
  have hfind3 : (insertRawFiles
      (insertMeta (insertName db acc.name) db.nextAID acc.metadata)
      acc.files).accessions.find? (fun r => r.1 == db.nextAID) =
      some (db.nextAID, acc.name) := by
    rw [h3acc, List.find?_append, hpre2, List.find?_cons_of_pos _ (by simp)]
    rfl
  have hm3 : (insertRawFiles
      (insertMeta (insertName db acc.name) db.nextAID acc.metadata)
      acc.files).metadata.filter (fun r => r.1 == db.nextAID) =
      acc.metadata.map (fun kv => (db.nextAID, kv.1, kv.2)) := by
    rw [h3meta, List.filter_append]
    rw [List.filter_eq_nil_iff.mpr ?_, List.filter_eq_self.mpr ?_]
    · rfl
    · intro r hr
      obtain ⟨q, _, hq2⟩ := List.mem_map.mp hr
      rw [← hq2]
      simp
    · intro r hr hcon
      have : r.1 = db.nextAID := by simpa using hcon
      exact absurd (hmeta r hr) (by rw [this]; exact Nat.lt_irrefl _)
  have hfl3 : (insertRawFiles
      (insertMeta (insertName db acc.name) db.nextAID acc.metadata)
      acc.files).aid_files.filter (fun r => r.1 == db.nextAID) = [] := by
    rw [h3af]
    refine List.filter_eq_nil_iff.mpr ?_
    intro r hr hcon
    have : r.1 = db.nextAID := by simpa using hcon
    exact absurd (haf r hr) (by rw [this]; exact Nat.lt_irrefl _)
  have hgi := getitem_clean
    (insertRawFiles (insertMeta (insertName db acc.name) db.nextAID
      acc.metadata) acc.files)
    acc.name db.nextAID acc.metadata hl3 hfind3 hm3 hkeys hfl3
  refine ⟨insertRawFiles (insertMeta (insertName db acc.name) db.nextAID
      acc.metadata) acc.files,
    { name := acc.name,
      metadata := dictUpd (acc.metadata.map (fun kv => (kv.1, MVal.s kv.2)))
        "AID" (.i db.nextAID),
      files := [] }, ?_, rfl, rfl, ?_⟩
  · simp only [add_accession_body, hres1]
    exact hgi
  · intro k
    show dictFind (dictUpd (acc.metadata.map (fun kv => (kv.1, MVal.s kv.2)))
      "AID" (.i db.nextAID)) k = _
    rw [dictFind_dictUpd]
    by_cases hk : k = "AID"
    · rw [if_pos hk, if_pos hk]
    · rw [if_neg hk, if_neg hk, dictFind_map_mval]

/-- The body lemma applied at the empty catalog and the concrete
accession `accC1` (metadata `{age: "23"}`, files `["a.fastq"]`). -/
theorem add_accession_body_get_inst :
    ∃ db' out, add_accession_body emptyCohort accC1 = .ok (out, db') ∧
      out.name = accC1.name ∧ out.files = [] ∧
      ∀ k, dictFind out.metadata k =
        if k = "AID" then some (MVal.i emptyCohort.nextAID)
        else (dictFind accC1.metadata k).map MVal.s :=
  add_accession_body_get emptyCohort accC1 (by decide) (by decide)
    (by decide) (by decide) (by decide)

/-! ## C5: sampling -/

/-- Every memoized AID still denotes an existing accession.  This holds
in every reachable state: entries are only created by successful fresh
resolutions, and every operation that deletes an accession clears the
cache. -/
def cacheSound (db : CohortDB) : Prop :=
  ∀ e ∈ db.cache, aidExists db e.2 = true

/-- Once the AID is resolved and the name row found, `__getitem__`
returns the assembled projection. -/
theorem getitem_eval (db : CohortDB) (id : Ident) (aid : Nat)
    (db1 : CohortDB) (row : Nat × String)
    (hget : getAID db id = .ok (aid, db1))
    (hfind : db1.accessions.find? (fun q => q.1 == aid) = some row) :
    getitem db id = .ok
      ({ name := row.2,
         metadata := dictUpd
           (((db1.metadata.filter (fun q => q.1 == aid)).map
             (fun q => (q.2.1, MVal.s q.2.2))).foldl
             (fun d kv => dictUpd d kv.1 kv.2) [])
           "AID" (.i aid),
         files := (db1.aid_files.filter (fun q => q.1 == aid)).filterMap
           (fun q => (db1.raw_files.find? (fun f => f.1 == q.2.1)).map
             (fun f => f.2)) },
       db1) := by
  simp only [getitem, hget, hfind]

theorem getitem_str_ok (db : CohortDB) (nm : String)
    (hnm : ∃ r ∈ db.accessions, r.2 = nm) (hcs : cacheSound db) :
    ∃ a db', getitem db (.str nm) = .ok (a, db') ∧
      db'.accessions = db.accessions ∧ cacheSound db' := by
  have hfindAid : ∀ aid : Nat, aidExists db aid = true →
      ∃ row, db.accessions.find? (fun q => q.1 == aid) = some row := by
    intro aid hex
    obtain ⟨q, hq, hq2⟩ := List.any_eq_true.mp hex
    have : (db.accessions.find? (fun q => q.1 == aid)).isSome :=
      List.find?_isSome.mpr ⟨q, hq, hq2⟩
    exact Option.isSome_iff_exists.mp this
  rcases hcl : cacheLookup db (.str nm) with _ | aid
  · obtain ⟨r, hr, hr2⟩ := hnm
    have hsome : (db.accessions.find? (fun q => q.2 == nm)).isSome :=
      List.find?_isSome.mpr ⟨r, hr, by simp [hr2]⟩
    obtain ⟨row, hrow⟩ := Option.isSome_iff_exists.mp hsome
    have hrowMem : row ∈ db.accessions := List.mem_of_find?_eq_some hrow
    have hlook : lookupName db nm = some row.1 := by
      unfold lookupName
      rw [hrow]
      rfl
    have hres : resolveFresh db (.str nm) = some row.1 := by
      simp only [resolveFresh, hlook]
    have hget : getAID db (.str nm) =
        .ok (row.1, { db with cache := db.cache ++ [(.str nm, row.1)] }) := by
      simp only [getAID, hcl, hres]
    have hex : aidExists db row.1 = true :=
      List.any_eq_true.mpr ⟨row, hrowMem, by simp⟩
    obtain ⟨row2, hrow2⟩ := hfindAid row.1 hex
    have hrow2' : ({ db with cache := db.cache ++ [(.str nm, row.1)] } :
        CohortDB).accessions.find? (fun q => q.1 == row.1) = some row2 := hrow2
    refine ⟨_, _,
      getitem_eval db (.str nm) row.1 _ row2 hget hrow2', rfl, ?_⟩
    intro e he
    rcases List.mem_append.mp he with he | he
    · exact hcs e he
    · have : e = (.str nm, row.1) := by simpa using he
      rw [this]
      exact hex
  · have hdf : dictFind db.cache (.str nm) = some aid := hcl
    unfold dictFind at hdf
    obtain ⟨p, hp, hp2⟩ := Option.map_eq_some'.mp hdf
    have hmem : p ∈ db.cache := List.mem_of_find?_eq_some hp
    have hex : aidExists db aid = true := by
      rw [← hp2]
      exact hcs p hmem
    have hget : getAID db (.str nm) = .ok (aid, db) := by
      simp only [getAID, hcl]
    obtain ⟨row2, hrow2⟩ := hfindAid aid hex
    exact ⟨_, db, getitem_eval db (.str nm) aid db row2 hget hrow2, rfl, hcs⟩

theorem drawMany_ok (rs : List Nat) :
    ∀ db : CohortDB, db.accessions ≠ [] → cacheSound db →
      ∃ out db', drawMany db rs = .ok (out, db') ∧
        db'.accessions = db.accessions ∧ cacheSound db' := by
  induction rs with
  | nil => intro db _ hcs; exact ⟨[], db, rfl, rfl, hcs⟩
  | cons r rs ih =>
    intro db h hcs
    cases hdbacc : db.accessions with
    | nil => exact absurd hdbacc h
    | cons a rest =>
      have hnm : ∃ q ∈ db.accessions,
          q.2 = (((a :: rest).getD (r % (a :: rest).length) a).2) := by
        refine ⟨(a :: rest).getD (r % (a :: rest).length) a, ?_, rfl⟩
        rw [hdbacc, List.getD_eq_getElem?_getD]
        cases hg : (a :: rest)[r % (a :: rest).length]? with
        | none => exact List.mem_cons_self a rest
        | some x =>
          simp only [Option.getD_some]
          exact List.getElem?_mem hg
      obtain ⟨aOut, db1, hgi, hacc1, hcs1⟩ := getitem_str_ok db _ hnm hcs
      have h1ne : db1.accessions ≠ [] := by rw [hacc1]; exact h
      obtain ⟨outs, db2, hdm, hacc2, hcs2⟩ := ih db1 h1ne hcs1
      have hra : random_accession db r = .ok (aOut, db1) := by
        unfold random_accession
        rw [hdbacc]
        exact hgi
      refine ⟨aOut :: outs, db2, ?_, by rw [hacc2, hacc1, hdbacc], hcs2⟩
      simp only [drawMany, hra, hdm]

/-- C5 (amended): sampling without replacement raises the size
`ValueError` whenever `n` exceeds the number of accessions; sampling with
replacement never raises PROVIDED the catalog is non-empty (on an empty
catalog each consumed draw fails with `TypeError`, see the
counterexample) and may return duplicates. -/
theorem C5_sampling :
    (∀ (db : CohortDB) (n : Nat) (perm : List String) (rs : List Nat),
       n > db.accessions.length →
       random_accessions db n false perm rs =
         .error (.valueError "Only len accessions in cohort")) ∧
    (∀ (db : CohortDB) (n : Nat) (perm : List String) (rs : List Nat),
       db.accessions ≠ [] → cacheSound db →
       ∃ out db', random_accessions db n true perm rs = .ok (out, db')) ∧
    (∃ a db', random_accessions dbC5s 2 true [] [0, 0] =
      .ok ([a, a], db')) := by
  refine ⟨?_, ?_, ?_⟩
  · intro db n perm rs hn
    simp only [random_accessions]
    rw [if_pos trivial, if_pos hn]
  · intro db n perm rs h hcs
    obtain ⟨out, db', hdm, _, _⟩ :=
      drawMany_ok ((List.range n).map (fun i => rs.getD i 0)) db h hcs
    refine ⟨out, db', ?_⟩
    simp only [random_accessions]
    rw [if_neg (by simp)]
    exact hdm
  · exact ⟨{ name := "S", metadata := [("AID", .i 1)], files := [] },
      { dbC5s with cache := [(.str "S", 1)] }, by decide⟩

/-- C5 witness: the amended statement applied at the one-accession
catalog `dbC5s`: asking for 3 of 1 without replacement raises the size
error, and one draw with replacement succeeds. -/
theorem C5_witness :
    random_accessions dbC5s 3 false [] [] =
      .error (.valueError "Only len accessions in cohort") ∧
    (∃ out db', random_accessions dbC5s 1 true [] [5] = .ok (out, db')) := by
  have h := C5_sampling
  exact ⟨h.1 dbC5s 3 [] [] (by decide),
    h.2.1 dbC5s 1 [] [5] (by decide) (by intro e he; cases he)⟩

/-! ## C9: the `_bcolz` round trip -/

/-- The dead payload logic of `_bcolz`, run as if `_m80_type` resolved:
the setter would preserve the index as an explicit `idx` column exactly
when the index DTYPE is not int64 (not when it is non-sequential): for
every nonempty frame whose index is not int64-dtyped and whose columns
are well-formed (no column named `idx`, every column as long as the
index), `get(put(name, d)) = d`, the `idx` column being restored as the
index on read-back; and a stored payload with zero rows is returned as
the empty table-shaped value.  An int64 index — sequential or not —
would be dropped.  (The method itself never reaches this code: it raises
`AttributeError`.) -/
theorem bcolz_body_roundtrip :
    (∀ (st : BStore) (tbl : String) (df : PDF),
       ¬ ("idx" ∈ df.cols.map Prod.fst) →
       (∀ c ∈ df.cols, c.2.length = df.index.length) →
       idxInt64 df = false →
       df.index ≠ [] → df.cols ≠ [] →
       bcolz_get_body (bcolz_put_body st tbl df) tbl = .ok df) ∧
    (∀ (st : BStore) (tbl : String) (df : PDF),
       dfEmpty df = true →
       bcolz_get_body (bcolz_put_body st tbl df) tbl = .ok emptyPDF) := by
  constructor
  · intro st tbl df hidx hlen hdtype hne hcne
    have hnone : ∀ c ∈ df.cols, ¬ ((fun c => c.1 == "idx") c = true) := by
      intro c hc hcon
      exact hidx (List.mem_map.mpr ⟨c, hc, by simpa using hcon⟩)
    have hempty : dfEmpty df = false := by
      simp [dfEmpty, List.length_eq_zero, hne, hcne]
    have hcond : (¬ idxInt64 df && ¬ dfEmpty df) = true := by
      rw [hdtype, hempty]
      rfl
    have hupd : dictUpd df.cols "idx" df.index =
        df.cols ++ [("idx", df.index)] := by
      unfold dictUpd
      rw [if_neg ?_]
      intro hcon
      obtain ⟨q, hq, hq2⟩ := List.any_eq_true.mp hcon
      exact hnone q hq hq2
    have hempty2 : dfEmpty (dfSetIdxCol df) = false := by
      unfold dfEmpty dfSetIdxCol
      rw [hupd]
      simp [List.length_eq_zero, hne]
    have hput : bcolz_put_body st tbl df =
        dictUpd st tbl (.table (df.cols ++ [("idx", df.index)])) := by
      unfold bcolz_put_body
      rw [if_pos hcond]
      dsimp only
      rw [if_neg (by rw [hempty2]; simp)]
      unfold dfSetIdxCol
      rw [hupd]
    rw [hput]
    have hfindtbl : dictFind
        (dictUpd st tbl (Stored.table (df.cols ++ [("idx", df.index)]))) tbl =
        some (.table (df.cols ++ [("idx", df.index)])) := by
      rw [dictFind_dictUpd]
      simp
    simp only [bcolz_get_body, hfindtbl]
    have hro : ¬ storedNRows (df.cols ++ [("idx", df.index)]) = 0 := by
      cases hc : df.cols with
      | nil => exact absurd hc hcne
      | cons c0 cs =>
        show ¬ storedNRows ((c0 :: cs) ++ [("idx", df.index)]) = 0
        show ¬ c0.2.length = 0
        rw [hlen c0 (by rw [hc]; exact List.mem_cons_self c0 cs)]
        simpa [List.length_eq_zero] using hne
    rw [if_neg hro]
    have hfindidx : dictFind (df.cols ++ [("idx", df.index)]) "idx" =
        some df.index := by
      unfold dictFind
      rw [List.find?_append, List.find?_eq_none.mpr hnone,
        List.find?_cons_of_pos _ (by simp)]
      rfl
    simp only [hfindidx]
    have hfil : (df.cols ++ [("idx", df.index)]).filter
        (fun c => ¬ c.1 == "idx") = df.cols := by
      rw [List.filter_append, List.filter_eq_self.mpr ?_]
      · simp
      · intro c hcm
        simpa using hnone c hcm
    rw [hfil]
  · intro st tbl df hemp
    have hcond : (¬ idxInt64 df && ¬ dfEmpty df) = false := by
      rw [hemp]
      simp
    unfold bcolz_put_body
    rw [if_neg (by rw [hcond]; simp)]
    dsimp only
    rw [if_pos hemp]
    have hfindtbl : dictFind (dictUpd st tbl Stored.emptyPayload) tbl =
        some .emptyPayload := by
      rw [dictFind_dictUpd]
      simp
    simp only [bcolz_get_body, hfindtbl]

/-- A two-row frame with a string (non-int64) index. -/
def dC9w : PDF :=
  { index := [.s "x", .s "y"], cols := [("a", [.i 1, .i 2])] }

/-- The body round-trip lemma applied at the string-indexed frame `dC9w`
(the index surviving through the `idx` column) and at the empty frame. -/
theorem bcolz_body_roundtrip_inst :
    bcolz_get_body (bcolz_put_body ([] : BStore) "t" dC9w) "t" = .ok dC9w ∧
    bcolz_get_body (bcolz_put_body ([] : BStore) "e" emptyPDF) "e" =
      .ok emptyPDF :=
  ⟨bcolz_body_roundtrip.1 [] "t" dC9w (by decide) (by decide) (by decide)
      (by decide) (by decide),
    bcolz_body_roundtrip.2 [] "e" emptyPDF (by decide)⟩

end Minus80
